import Mathlib

/-!
Shallow embedding of `src/device.cpp`: a small steady-state process-flow
model with `Stream`s (carrying a scalar mass flow) and `Device`s
(Mixer, Reactor, Divider) that redistribute mass between attached input
and output streams.

Streams are identified by natural-number ids; a `Store` assigns to every
stream id its current `mass_flow` (a C++ `double`, modelled as `Rat`).
A device holds the ids of its attached streams, so aliasing (the same
stream attached several times, or both as input and output) is
representable, exactly as with the C++ `shared_ptr<Stream>` ports.

Mutating operations return the resulting state together with
`Option DevError`; `some e` models a thrown C++ exception, and the
returned state is the state at the moment the exception propagates
(the C++ code mutates streams in place, so writes performed before a
throw persist).
-/

namespace LabDevice

/-- A store assigns to every stream id its current mass flow
(`Stream::mass_flow`, a C++ `double`, modelled as `Rat`). -/
abbrev Store := Nat → Rat

/-- `Stream::setMassFlow` applied to the stream with id `id`. -/
def setMassFlow (σ : Store) (id : Nat) (v : Rat) : Store :=
  fun j => if j = id then v else σ j

/-- Which port list an attachment error refers to. -/
inductive PortKind
  | input
  | output
deriving DecidableEq

/-- The failures `src/device.cpp` can raise:
`portLimitExceeded .input` models the thrown `"INPUT STREAM LIMIT!"`
(`Device::addInput`) and `"Too much inputs"s` (`Mixer::addInput`);
`portLimitExceeded .output` models `"OUTPUT STREAM LIMIT!"`
(`Device::addOutput`) and `"Too much outputs"s` (`Mixer::addOutput`);
`precursorMissing` models the messages thrown by `Mixer::updateOutputs`
(`"Should set outputs before update"s`) and `Divider::updateOutputs`
when a required port list is empty; `outOfRange` models the
`std::out_of_range` exception thrown by `std::vector::at`. -/
inductive DevError
  | portLimitExceeded (kind : PortKind)
  | precursorMissing
  | outOfRange
deriving DecidableEq

/-- Conversion of a C++ `int` to `size_t` (64-bit unsigned), as performed
by the usual arithmetic conversions in comparisons like
`inputs.size() < inputAmount` and by `vector::at`'s `size_type`
parameter: reduction modulo `2 ^ 64`, so negative values become huge. -/
def toSizeT (n : Int) : Nat := (n % (2 : Int) ^ 64).toNat

/-- The state of a C++ `Device`: the capacities `inputAmount` /
`outputAmount` (C++ `int`s, set by the derived-class constructors) and
the ordered lists of attached stream ids (`vector<shared_ptr<Stream>>`). -/
structure Device where
  inputAmount : Int
  outputAmount : Int
  inputs : List Nat
  outputs : List Nat
deriving DecidableEq

/-- `Device::addInput`: pushes `s` if `inputs.size() < inputAmount`
(a `size_t` vs `int` comparison, hence `toSizeT`), otherwise throws
`"INPUT STREAM LIMIT!"` leaving the device unchanged. -/
def Device.addInput (d : Device) (s : Nat) : Device × Option DevError :=
  if d.inputs.length < toSizeT d.inputAmount then
    ({ d with inputs := d.inputs ++ [s] }, none)
  else (d, some (DevError.portLimitExceeded PortKind.input))

/-- `Device::addOutput`: pushes `s` if `outputs.size() < outputAmount`,
otherwise throws `"OUTPUT STREAM LIMIT!"` leaving the device unchanged. -/
def Device.addOutput (d : Device) (s : Nat) : Device × Option DevError :=
  if d.outputs.length < toSizeT d.outputAmount then
    ({ d with outputs := d.outputs ++ [s] }, none)
  else (d, some (DevError.portLimitExceeded PortKind.output))

/-- `Device::getInput`: `inputs.at(index)` with an `int` index converted
to the vector's `size_type`; `at` throws `std::out_of_range` when the
converted index is not below the size. -/
def Device.getInput (d : Device) (i : Int) : Except DevError Nat :=
  if h : toSizeT i < d.inputs.length then
    Except.ok (d.inputs.get ⟨toSizeT i, h⟩)
  else Except.error DevError.outOfRange

/-- `Device::getOutput`: `outputs.at(index)`, as for `getInput`. -/
def Device.getOutput (d : Device) (i : Int) : Except DevError Nat :=
  if h : toSizeT i < d.outputs.length then
    Except.ok (d.outputs.get ⟨toSizeT i, h⟩)
  else Except.error DevError.outOfRange

/-- `Device::getInputCount`: returns `inputs.size()` as an `int`. -/
def Device.getInputCount (d : Device) : Int := d.inputs.length

/-- `Device::getOutputCount`: returns `outputs.size()` as an `int`. -/
def Device.getOutputCount (d : Device) : Int := d.outputs.length

/-- The C++ constant `const int MIXER_OUTPUTS = 1`. -/
def MIXER_OUTPUTS : Int := 1

/-- The `Mixer(int inputs_count)` constructor: `inputAmount` and the
private `_inputs_count` are both set to `inputs_count` (so the two
fields always coincide and `_inputs_count` is not modelled separately);
`outputAmount = MIXER_OUTPUTS`; the port vectors start empty. -/
def mkMixer (inputs_count : Int) : Device :=
  { inputAmount := inputs_count, outputAmount := MIXER_OUTPUTS,
    inputs := [], outputs := [] }

/-- `Mixer::addInput` (hides the base version): throws
`"Too much inputs"s` when `inputs.size() == _inputs_count`
(`size_t` vs `int`, hence `toSizeT`; `_inputs_count = inputAmount`),
otherwise pushes. -/
def Mixer.addInput (d : Device) (s : Nat) : Device × Option DevError :=
  if d.inputs.length = toSizeT d.inputAmount then
    (d, some (DevError.portLimitExceeded PortKind.input))
  else ({ d with inputs := d.inputs ++ [s] }, none)

/-- `Mixer::addOutput` (hides the base version): throws
`"Too much outputs"s` when `outputs.size() == MIXER_OUTPUTS`,
otherwise pushes. -/
def Mixer.addOutput (d : Device) (s : Nat) : Device × Option DevError :=
  if d.outputs.length = toSizeT MIXER_OUTPUTS then
    (d, some (DevError.portLimitExceeded PortKind.output))
  else ({ d with outputs := d.outputs ++ [s] }, none)

/-- The accumulation loop of `Mixer::updateOutputs`:
`for (input_stream : inputs) sum_mass_flow += getMassFlow()`. -/
def sumFlows (ids : List Nat) (σ : Store) : Rat :=
  ids.foldl (fun acc id => acc + σ id) 0

/-- The write loop shared by `Mixer::updateOutputs` and
`Divider::updateOutputs`: `for (output_stream : outputs)
output_stream->setMassFlow(v)`. -/
def writeAll : List Nat → Rat → Store → Store
  | [], _, σ => σ
  | id :: rest, v, σ => writeAll rest v (setMassFlow σ id v)

/-- `Mixer::updateOutputs`: sums all input flows, throws
`"Should set outputs before update"s` if `outputs` is empty, otherwise
writes `sum_mass_flow / outputs.size()` to every output. -/
def Mixer.updateOutputs (d : Device) (σ : Store) : Store × Option DevError :=
  let sum_mass_flow := sumFlows d.inputs σ
  if d.outputs = [] then (σ, some DevError.precursorMissing)
  else
    (writeAll d.outputs (sum_mass_flow / (d.outputs.length : Rat)) σ, none)

/-- The `Reactor(bool isDoubleReactor)` constructor: one input port,
two output ports when `isDoubleReactor` else one. -/
def mkReactor (isDoubleReactor : Bool) : Device :=
  { inputAmount := 1, outputAmount := if isDoubleReactor then 2 else 1,
    inputs := [], outputs := [] }

/-- The loop of `Reactor::updateOutputs`:
`for (int i = 0; i < outputAmount; i++) outputs.at(i)->setMassFlow(v)`,
unrolled on the remaining iteration count `k` (so `k = outputAmount`
converted to `Nat` at the start; a non-positive `outputAmount` runs zero
iterations). `outputs.at(i)` throws `std::out_of_range` when
`i ≥ outputs.size()`; writes performed before the throw persist. -/
def reactorWrite (outs : List Nat) (v : Rat) : Nat → Nat → Store → Store × Option DevError
  | _, 0, σ => (σ, none)
  | i, Nat.succ k, σ =>
    if h : i < outs.length then
      reactorWrite outs v (i + 1) k (setMassFlow σ (outs.get ⟨i, h⟩) v)
    else (σ, some DevError.outOfRange)

/-- `Reactor::updateOutputs`: reads `inputs.at(0)` (throwing
`std::out_of_range` when no input is attached), then writes
`inputMass * (1.0 / outputAmount)` to `outputs.at(i)` for
`i = 0 .. outputAmount - 1`. -/
def Reactor.updateOutputs (d : Device) (σ : Store) : Store × Option DevError :=
  match d.inputs with
  | [] => (σ, some DevError.outOfRange)
  | i0 :: _ =>
    let inputMass := σ i0
    reactorWrite d.outputs (inputMass * (1 / (d.outputAmount : Rat)))
      0 d.outputAmount.toNat σ

/-- The `Divider(int outputs_count)` constructor: one input port,
`outputs_count` output ports. -/
def mkDivider (outputs_count : Int) : Device :=
  { inputAmount := 1, outputAmount := outputs_count,
    inputs := [], outputs := [] }

/-- `Divider::updateOutputs`: throws its precondition message when
`inputs` or `outputs` is empty, otherwise writes
`inputs[0]->getMassFlow() / outputs.size()` to every output. -/
def Divider.updateOutputs (d : Device) (σ : Store) : Store × Option DevError :=
  match d.inputs, d.outputs with
  | [], _ => (σ, some DevError.precursorMissing)
  | _ :: _, [] => (σ, some DevError.precursorMissing)
  | i0 :: _, _ :: _ =>
    let input_mass := σ i0
    (writeAll d.outputs (input_mass / (d.outputs.length : Rat)) σ, none)

/-- Repeatedly call `Device::addOutput`, stopping at the first thrown
error (used to express unbounded attachment for claim C10). -/
def addAllOutputs : Device → List Nat → Device × Option DevError
  | d, [] => (d, none)
  | d, s :: rest =>
    match Device.addOutput d s with
    | (d2, none) => addAllOutputs d2 rest
    | (d2, some e) => (d2, some e)

/-! ### Helper lemmas about the embedded operations -/

theorem toSizeT_lt_iff (i : Int) (L : Nat) (h1 : -(2 ^ 31) ≤ i) (h2 : i < 2 ^ 31)
    (hL : L < 2 ^ 63) : toSizeT i < L ↔ 0 ≤ i ∧ i < (L : Int) := by
  unfold toSizeT; omega

theorem toSizeT_eq_toNat (n : Int) (h1 : 0 ≤ n) (h2 : n < 2 ^ 64) :
    toSizeT n = n.toNat := by
  unfold toSizeT; omega

theorem toSizeT_of_neg_ge (n : Int) (h1 : -(2 ^ 31) ≤ n) (h2 : n < 0) :
    2 ^ 63 < toSizeT n := by
  unfold toSizeT; omega

theorem sumFlows_eq (l : List Nat) (σ : Store) : sumFlows l σ = (l.map σ).sum := by
  suffices h : ∀ a : Rat, l.foldl (fun acc id => acc + σ id) a = a + (l.map σ).sum by
    simpa [sumFlows] using h 0
  induction l with
  | nil => intro a; simp
  | cons x t ih => intro a; simp [ih]; ring

theorem writeAll_not_mem (l : List Nat) (v : Rat) (σ : Store) (id : Nat)
    (h : id ∉ l) : writeAll l v σ id = σ id := by
  induction l generalizing σ with
  | nil => rfl
  | cons a t ih =>
    have ha : id ≠ a := fun he => h (he ▸ List.mem_cons_self a t)
    have ht : id ∉ t := fun he => h (List.mem_cons_of_mem a he)
    show writeAll t v (setMassFlow σ a v) id = σ id
    rw [ih _ ht]
    simp [setMassFlow, ha]

theorem writeAll_mem (l : List Nat) (v : Rat) (σ : Store) (id : Nat)
    (h : id ∈ l) : writeAll l v σ id = v := by
  induction l generalizing σ with
  | nil => cases h
  | cons a t ih =>
    show writeAll t v (setMassFlow σ a v) id = v
    by_cases ht : id ∈ t
    · exact ih _ ht
    · have ha : id = a := by
        rcases List.mem_cons.mp h with he | he
        · exact he
        · exact absurd he ht
      rw [writeAll_not_mem t v _ id ht]
      simp [setMassFlow, ha]

theorem list_map_sum_const (l : List Nat) (f : Nat → Rat) (c : Rat)
    (h : ∀ x ∈ l, f x = c) : (l.map f).sum = l.length * c := by
  induction l with
  | nil => simp
  | cons a t ih =>
    have ha : f a = c := h a (List.mem_cons_self a t)
    have ht : (t.map f).sum = t.length * c := ih fun x hx => h x (List.mem_cons_of_mem a hx)
    simp [ha, ht]
    ring

theorem reactorWrite_eq (outs : List Nat) (v : Rat) :
    ∀ (k i : Nat) (σ : Store),
      reactorWrite outs v i k σ =
        (writeAll ((outs.drop i).take k) v σ,
          if i + k ≤ outs.length ∨ k = 0 then none else some DevError.outOfRange) := by
  intro k
  induction k with
  | zero =>
    intro i σ
    simp [reactorWrite, writeAll]
  | succ k ih =>
    intro i σ
    by_cases h : i < outs.length
    · have hstep : reactorWrite outs v i (k + 1) σ =
          reactorWrite outs v (i + 1) k (setMassFlow σ (outs.get ⟨i, h⟩) v) := by
        simp [reactorWrite, h]
      rw [hstep, ih (i + 1)]
      have hdrop : outs.drop i = outs.get ⟨i, h⟩ :: outs.drop (i + 1) :=
        List.drop_eq_getElem_cons h
      have hfst : writeAll ((outs.drop i).take (k + 1)) v σ =
          writeAll ((outs.drop (i + 1)).take k) v (setMassFlow σ (outs.get ⟨i, h⟩) v) := by
        rw [hdrop]
        rfl
      rw [hfst]
      have hc : (i + 1 + k ≤ outs.length ∨ k = 0) ↔
          (i + (k + 1) ≤ outs.length ∨ k + 1 = 0) := by omega
      rw [if_congr hc rfl rfl]
    · have hstep : reactorWrite outs v i (k + 1) σ = (σ, some DevError.outOfRange) := by
        simp [reactorWrite, h]
      rw [hstep]
      have hdrop : outs.drop i = [] := List.drop_eq_nil_of_le (by omega)
      rw [hdrop]
      have hfalse : ¬(i + (k + 1) ≤ outs.length ∨ k + 1 = 0) := by omega
      rw [if_neg hfalse]
      rfl

theorem reactor_update_eq (d : Device) (σ : Store) (i0 : Nat) (rest : List Nat)
    (h : d.inputs = i0 :: rest) :
    Reactor.updateOutputs d σ =
      (writeAll (d.outputs.take d.outputAmount.toNat)
          (σ i0 * (1 / (d.outputAmount : Rat))) σ,
        if d.outputAmount.toNat ≤ d.outputs.length ∨ d.outputAmount.toNat = 0
        then none else some DevError.outOfRange) := by
  unfold Reactor.updateOutputs
  rw [h]
  show reactorWrite d.outputs (σ i0 * (1 / (d.outputAmount : Rat)))
      0 d.outputAmount.toNat σ = _
  rw [reactorWrite_eq]
  simp

theorem mixer_update_nil (d : Device) (σ : Store) (h : d.outputs = []) :
    Mixer.updateOutputs d σ = (σ, some DevError.precursorMissing) := by
  simp [Mixer.updateOutputs, h]

theorem mixer_update_ok (d : Device) (σ : Store) (h : d.outputs ≠ []) :
    Mixer.updateOutputs d σ =
      (writeAll d.outputs (sumFlows d.inputs σ / (d.outputs.length : Rat)) σ, none) := by
  simp [Mixer.updateOutputs, h]

theorem divider_update_ok (d : Device) (σ : Store) (i0 : Nat) (irest : List Nat)
    (hi : d.inputs = i0 :: irest) (ho : d.outputs ≠ []) :
    Divider.updateOutputs d σ =
      (writeAll d.outputs (σ i0 / (d.outputs.length : Rat)) σ, none) := by
  unfold Divider.updateOutputs
  rcases hout : d.outputs with _ | ⟨o0, orest⟩
  · exact absurd hout ho
  · rw [hi]

theorem divider_update_fail (d : Device) (σ : Store)
    (h : d.inputs = [] ∨ d.outputs = []) :
    Divider.updateOutputs d σ = (σ, some DevError.precursorMissing) := by
  unfold Divider.updateOutputs
  rcases hin : d.inputs with _ | ⟨i0, irest⟩
  · rfl
  · rcases hout : d.outputs with _ | ⟨o0, orest⟩
    · rfl
    · rcases h with h | h
      · rw [hin] at h; cases h
      · rw [hout] at h; cases h

theorem sumFlows_congr (l : List Nat) (σ τ : Store) (h : ∀ id ∈ l, σ id = τ id) :
    sumFlows l σ = sumFlows l τ := by
  rw [sumFlows_eq, sumFlows_eq, List.map_congr_left h]

theorem list_getD_eq_get (l : List Nat) (n : Nat) (h : n < l.length) :
    l.getD n 0 = l.get ⟨n, h⟩ := by
  simp [List.getD_eq_getElem?_getD, List.getElem?_eq_getElem h]

/-! ### Claims -/

/-- C1: for every Mixer and every list of attached input streams,
`updateOutputs` fails with `PrecursorMissing` (leaving every stream
untouched) when the outputs list is empty, and otherwise succeeds and
sets each attached output's mass flow to the sum of all attached inputs'
mass flows divided by the number of attached outputs; with zero inputs
attached the sum is `0` and the single output becomes `0` without
error. -/
theorem mixer_updateOutputs_spec (d : Device) (σ : Store) :
    (d.outputs = [] → Mixer.updateOutputs d σ = (σ, some DevError.precursorMissing)) ∧
    (d.outputs ≠ [] →
      (Mixer.updateOutputs d σ).2 = none ∧
      ∀ id ∈ d.outputs,
        (Mixer.updateOutputs d σ).1 id = (d.inputs.map σ).sum / (d.outputs.length : Rat)) ∧
    (d.inputs = [] → ∀ s, d.outputs = [s] →
      (Mixer.updateOutputs d σ).2 = none ∧ (Mixer.updateOutputs d σ).1 s = 0) := by
  refine ⟨fun h => mixer_update_nil d σ h, fun h => ?_, fun hin s hout => ?_⟩
  · rw [mixer_update_ok d σ h]
    exact ⟨rfl, fun id hid => by
      show writeAll d.outputs (sumFlows d.inputs σ / (d.outputs.length : Rat)) σ id =
        (d.inputs.map σ).sum / (d.outputs.length : Rat)
      rw [writeAll_mem d.outputs _ σ id hid, sumFlows_eq]⟩
  · have h : d.outputs ≠ [] := by rw [hout]; exact List.cons_ne_nil s []
    rw [mixer_update_ok d σ h, hout, hin]
    refine ⟨rfl, ?_⟩
    show writeAll [s] (sumFlows [] σ / ((List.length [s] : Nat) : Rat)) σ s = 0
    rw [writeAll_mem [s] _ σ s (List.mem_singleton.mpr rfl)]
    norm_num [sumFlows]

/-- Concrete store for the C1 witness: stream 1 carries 10, stream 2
carries 5. -/
def σC1 : Store := fun id => if id = 1 then 10 else if id = 2 then 5 else 0

/-- Witness for C1: a `Mixer(2)` with inputs 10 and 5 and one output
yields 15 on the output, and with no output attached it fails with
`PrecursorMissing`. -/
theorem mixer_updateOutputs_spec_witness :
    ((Mixer.updateOutputs ⟨2, 1, [1, 2], [3]⟩ σC1).2 = none ∧
      (Mixer.updateOutputs ⟨2, 1, [1, 2], [3]⟩ σC1).1 3 = 15) ∧
    Mixer.updateOutputs ⟨2, 1, [1, 2], []⟩ σC1 = (σC1, some DevError.precursorMissing) := by
  have h1 := (mixer_updateOutputs_spec ⟨2, 1, [1, 2], [3]⟩ σC1).2.1 (by decide)
  have h2 := (mixer_updateOutputs_spec ⟨2, 1, [1, 2], []⟩ σC1).1 rfl
  refine ⟨⟨h1.1, ?_⟩, h2⟩
  rw [h1.2 3 (by decide)]
  norm_num [σC1]

/-- C2: for every Divider, `updateOutputs` fails with `PrecursorMissing`
when the inputs list or the outputs list is empty, and otherwise assigns
to every attached output the first input's mass flow divided by the
number of currently attached outputs (the attached count, not the
declared capacity, which the computation never reads). -/
theorem divider_updateOutputs_spec (d : Device) (σ : Store) :
    (d.inputs = [] ∨ d.outputs = [] →
      Divider.updateOutputs d σ = (σ, some DevError.precursorMissing)) ∧
    (∀ i0 irest, d.inputs = i0 :: irest → d.outputs ≠ [] →
      (Divider.updateOutputs d σ).2 = none ∧
      ∀ id ∈ d.outputs,
        (Divider.updateOutputs d σ).1 id = σ i0 / (d.outputs.length : Rat)) := by
  refine ⟨divider_update_fail d σ, fun i0 irest hi ho => ?_⟩
  rw [divider_update_ok d σ i0 irest hi ho]
  exact ⟨rfl, fun id hid => writeAll_mem d.outputs _ σ id hid⟩

/-- Concrete store for the C2 witness: stream 1 carries 12. -/
def σC2 : Store := fun id => if id = 1 then 12 else 0

/-- Witness for C2: a `Divider(3)` with input 12 and three outputs puts 4
on each output, and with no input attached it fails with
`PrecursorMissing`. -/
theorem divider_updateOutputs_spec_witness :
    ((Divider.updateOutputs ⟨1, 3, [1], [2, 3, 4]⟩ σC2).2 = none ∧
      (Divider.updateOutputs ⟨1, 3, [1], [2, 3, 4]⟩ σC2).1 3 = 4) ∧
    Divider.updateOutputs ⟨1, 3, [], [2]⟩ σC2 = (σC2, some DevError.precursorMissing) := by
  have h1 := (divider_updateOutputs_spec ⟨1, 3, [1], [2, 3, 4]⟩ σC2).2 1 [] rfl (by decide)
  have h2 := (divider_updateOutputs_spec ⟨1, 3, [], [2]⟩ σC2).1 (Or.inl rfl)
  refine ⟨⟨h1.1, ?_⟩, h2⟩
  rw [h1.2 3 (by decide)]
  norm_num [σC2]

/-- C6: whenever `updateOutputs` on a Mixer (empty outputs) or a Divider
(empty inputs or outputs) fails with `PrecursorMissing`, the returned
store is exactly the store before the call, so no attached stream's mass
flow changed; and whenever the call succeeds, every attached output has
been written — the precondition checks happen before any output is
mutated, so there is no partial-failure state. -/
theorem update_atomicity (d : Device) (σ : Store) :
    (d.outputs = [] → Mixer.updateOutputs d σ = (σ, some DevError.precursorMissing)) ∧
    (d.inputs = [] ∨ d.outputs = [] →
      Divider.updateOutputs d σ = (σ, some DevError.precursorMissing)) ∧
    ((Mixer.updateOutputs d σ).2 = none →
      ∀ id ∈ d.outputs, (Mixer.updateOutputs d σ).1 id =
        sumFlows d.inputs σ / (d.outputs.length : Rat)) ∧
    ((Divider.updateOutputs d σ).2 = none →
      ∀ i0 irest, d.inputs = i0 :: irest →
        ∀ id ∈ d.outputs, (Divider.updateOutputs d σ).1 id =
          σ i0 / (d.outputs.length : Rat)) := by
  refine ⟨fun h => mixer_update_nil d σ h, divider_update_fail d σ,
    fun hs => ?_, fun hs i0 irest hi => ?_⟩
  · by_cases h : d.outputs = []
    · rw [mixer_update_nil d σ h] at hs
      simp at hs
    · rw [mixer_update_ok d σ h]
      exact fun id hid => writeAll_mem d.outputs _ σ id hid
  · by_cases h : d.outputs = []
    · rw [divider_update_fail d σ (Or.inr h)] at hs
      simp at hs
    · rw [divider_update_ok d σ i0 irest hi h]
      exact fun id hid => writeAll_mem d.outputs _ σ id hid

/-- Concrete store for the C6 witness. -/
def σC6 : Store := fun id => if id = 1 then 7 else 0

/-- Witness for C6: a Mixer with no output and a Divider with no input
fail leaving the store exactly as it was, and a successful Divider call
writes its output. -/
theorem update_atomicity_witness :
    Mixer.updateOutputs ⟨2, 1, [1], []⟩ σC6 = (σC6, some DevError.precursorMissing) ∧
    Divider.updateOutputs ⟨1, 2, [], [2]⟩ σC6 = (σC6, some DevError.precursorMissing) ∧
    (Divider.updateOutputs ⟨1, 1, [1], [2]⟩ σC6).1 2 = 7 := by
  have h1 := (update_atomicity ⟨2, 1, [1], []⟩ σC6).1 rfl
  have h2 := (update_atomicity ⟨1, 2, [], [2]⟩ σC6).2.1 (Or.inl rfl)
  have h3 := (update_atomicity ⟨1, 1, [1], [2]⟩ σC6).2.2.2 (by decide) 1 [] rfl 2
    (by decide)
  refine ⟨h1, h2, ?_⟩
  rw [h3]
  norm_num [sumFlows, σC6]

/-- C5: for every device whose input list already holds `inputAmount`
streams (resp. output list holds `outputAmount` streams), a further
`addInput` (resp. `addOutput`) fails with `PortLimitExceeded` of the
corresponding kind and returns the device unchanged, and below capacity
the call appends the stream, preserving attachment order; this holds for
the base `Device` methods and for the hiding `Mixer` methods (whose
output check compares against `MIXER_OUTPUTS`, the output capacity every
constructed Mixer has).  The capacities are C++ `int`s, hence the
`2 ^ 31` bounds. -/
theorem capacity_enforcement (d : Device) (s : Nat)
    (hin : d.inputAmount < 2 ^ 31) (hout : d.outputAmount < 2 ^ 31) :
    ((d.inputs.length : Int) = d.inputAmount →
      Device.addInput d s = (d, some (DevError.portLimitExceeded PortKind.input)) ∧
      Mixer.addInput d s = (d, some (DevError.portLimitExceeded PortKind.input))) ∧
    ((d.inputs.length : Int) < d.inputAmount →
      Device.addInput d s = ({ d with inputs := d.inputs ++ [s] }, none) ∧
      Mixer.addInput d s = ({ d with inputs := d.inputs ++ [s] }, none)) ∧
    ((d.outputs.length : Int) = d.outputAmount →
      Device.addOutput d s = (d, some (DevError.portLimitExceeded PortKind.output))) ∧
    ((d.outputs.length : Int) < d.outputAmount →
      Device.addOutput d s = ({ d with outputs := d.outputs ++ [s] }, none)) ∧
    ((d.outputs.length : Int) = MIXER_OUTPUTS →
      Mixer.addOutput d s = (d, some (DevError.portLimitExceeded PortKind.output))) ∧
    ((d.outputs.length : Int) < MIXER_OUTPUTS →
      Mixer.addOutput d s = ({ d with outputs := d.outputs ++ [s] }, none)) := by
  refine ⟨fun h => ?_, fun h => ?_, fun h => ?_, fun h => ?_, fun h => ?_, fun h => ?_⟩
  · have ht : toSizeT d.inputAmount = d.inputs.length := by unfold toSizeT; omega
    constructor
    · simp [Device.addInput, ht]
    · simp [Mixer.addInput, ht]
  · have ht : d.inputs.length < toSizeT d.inputAmount := by unfold toSizeT; omega
    constructor
    · simp [Device.addInput, ht]
    · simp [Mixer.addInput, Nat.ne_of_lt ht]
  · have ht : toSizeT d.outputAmount = d.outputs.length := by unfold toSizeT; omega
    simp [Device.addOutput, ht]
  · have ht : d.outputs.length < toSizeT d.outputAmount := by unfold toSizeT; omega
    simp [Device.addOutput, ht]
  · have ht : toSizeT MIXER_OUTPUTS = d.outputs.length := by
      unfold toSizeT MIXER_OUTPUTS
      unfold MIXER_OUTPUTS at h
      omega
    simp [Mixer.addOutput, ht]
  · have ht : d.outputs.length ≠ toSizeT MIXER_OUTPUTS := by
      unfold toSizeT MIXER_OUTPUTS
      unfold MIXER_OUTPUTS at h
      omega
    simp [Mixer.addOutput, ht]

/-- Witness for C5: a full device (2 of 2 inputs, 1 of 1 outputs)
rejects further attachments unchanged, and a below-capacity device
appends. -/
theorem capacity_enforcement_witness :
    (Device.addInput ⟨2, 1, [7, 8], [9]⟩ 5 =
      (⟨2, 1, [7, 8], [9]⟩, some (DevError.portLimitExceeded PortKind.input))) ∧
    (Mixer.addOutput ⟨2, 1, [7, 8], [9]⟩ 5 =
      (⟨2, 1, [7, 8], [9]⟩, some (DevError.portLimitExceeded PortKind.output))) ∧
    (Device.addInput ⟨2, 1, [7], [9]⟩ 5 = (⟨2, 1, [7, 5], [9]⟩, none)) ∧
    (Mixer.addOutput ⟨2, 1, [7], []⟩ 5 = (⟨2, 1, [7], [5]⟩, none)) := by
  have hfull := capacity_enforcement ⟨2, 1, [7, 8], [9]⟩ 5 (by norm_num) (by norm_num)
  have hbelow := capacity_enforcement ⟨2, 1, [7], [9]⟩ 5 (by norm_num) (by norm_num)
  have hbelow2 := capacity_enforcement ⟨2, 1, [7], []⟩ 5 (by norm_num) (by norm_num)
  refine ⟨(hfull.1 (by norm_num)).1, hfull.2.2.2.2.1 (by norm_num [MIXER_OUTPUTS]), ?_, ?_⟩
  · have := (hbelow.2.1 (by norm_num)).1
    simpa using this
  · have := hbelow2.2.2.2.2.2 (by norm_num [MIXER_OUTPUTS])
    simpa using this

/-- C9: for every device, `getInput i` and `getOutput i` fail with the
out-of-range error exactly when `i` lies outside the attached range
`[0, count)`, and otherwise return the `i`-th attached stream in
attachment order; `getInputCount` / `getOutputCount` return the attached
counts and are total.  `i` is a C++ `int` and a `std::vector` cannot
exceed `2 ^ 63` elements, hence the range hypotheses. -/
theorem accessor_safety (d : Device) (i : Int)
    (h1 : -(2 ^ 31) ≤ i) (h2 : i < 2 ^ 31)
    (hlin : d.inputs.length < 2 ^ 63) (hlout : d.outputs.length < 2 ^ 63) :
    (Device.getInput d i = Except.error DevError.outOfRange ↔
      ¬(0 ≤ i ∧ i < (d.inputs.length : Int))) ∧
    (∀ _ : 0 ≤ i, ∀ _ : i < (d.inputs.length : Int),
      Device.getInput d i = Except.ok (d.inputs.getD i.toNat 0)) ∧
    (Device.getOutput d i = Except.error DevError.outOfRange ↔
      ¬(0 ≤ i ∧ i < (d.outputs.length : Int))) ∧
    (∀ _ : 0 ≤ i, ∀ _ : i < (d.outputs.length : Int),
      Device.getOutput d i = Except.ok (d.outputs.getD i.toNat 0)) ∧
    Device.getInputCount d = (d.inputs.length : Int) ∧
    Device.getOutputCount d = (d.outputs.length : Int) := by
  refine ⟨?_, ?_, ?_, ?_, rfl, rfl⟩
  · unfold Device.getInput
    by_cases hc : toSizeT i < d.inputs.length
    · rw [dif_pos hc]
      have := (toSizeT_lt_iff i d.inputs.length h1 h2 hlin).mp hc
      simp [this]
    · rw [dif_neg hc]
      have : ¬(0 ≤ i ∧ i < (d.inputs.length : Int)) :=
        fun hh => hc ((toSizeT_lt_iff i d.inputs.length h1 h2 hlin).mpr hh)
      simp [this]
  · intro h0 h3
    have hc : toSizeT i < d.inputs.length :=
      (toSizeT_lt_iff i d.inputs.length h1 h2 hlin).mpr ⟨h0, h3⟩
    have ht : toSizeT i = i.toNat := toSizeT_eq_toNat i h0 (by omega)
    have h4 : i.toNat < d.inputs.length := by omega
    unfold Device.getInput
    rw [dif_pos hc, list_getD_eq_get d.inputs i.toNat h4]
    have hfin : (⟨toSizeT i, hc⟩ : Fin d.inputs.length) = ⟨i.toNat, h4⟩ := Fin.ext ht
    rw [hfin]
  · unfold Device.getOutput
    by_cases hc : toSizeT i < d.outputs.length
    · rw [dif_pos hc]
      have := (toSizeT_lt_iff i d.outputs.length h1 h2 hlout).mp hc
      simp [this]
    · rw [dif_neg hc]
      have : ¬(0 ≤ i ∧ i < (d.outputs.length : Int)) :=
        fun hh => hc ((toSizeT_lt_iff i d.outputs.length h1 h2 hlout).mpr hh)
      simp [this]
  · intro h0 h3
    have hc : toSizeT i < d.outputs.length :=
      (toSizeT_lt_iff i d.outputs.length h1 h2 hlout).mpr ⟨h0, h3⟩
    have ht : toSizeT i = i.toNat := toSizeT_eq_toNat i h0 (by omega)
    have h4 : i.toNat < d.outputs.length := by omega
    unfold Device.getOutput
    rw [dif_pos hc, list_getD_eq_get d.outputs i.toNat h4]
    have hfin : (⟨toSizeT i, hc⟩ : Fin d.outputs.length) = ⟨i.toNat, h4⟩ := Fin.ext ht
    rw [hfin]

/-- Witness for C9: on a device with inputs `[4, 6]`, `getInput 1`
returns stream 6, `getInput 2` and `getInput (-1)` fail with the
out-of-range error, and the counts are 2 and 0. -/
theorem accessor_safety_witness :
    Device.getInput ⟨2, 1, [4, 6], []⟩ 1 = Except.ok 6 ∧
    Device.getInput ⟨2, 1, [4, 6], []⟩ 2 = Except.error DevError.outOfRange ∧
    Device.getInput ⟨2, 1, [4, 6], []⟩ (-1) = Except.error DevError.outOfRange ∧
    Device.getInputCount ⟨2, 1, [4, 6], []⟩ = 2 ∧
    Device.getOutputCount ⟨2, 1, [4, 6], []⟩ = 0 := by
  have h1 := accessor_safety ⟨2, 1, [4, 6], []⟩ 1 (by norm_num) (by norm_num)
    (by norm_num) (by norm_num)
  have h2 := accessor_safety ⟨2, 1, [4, 6], []⟩ 2 (by norm_num) (by norm_num)
    (by norm_num) (by norm_num)
  have h3 := accessor_safety ⟨2, 1, [4, 6], []⟩ (-1) (by norm_num) (by norm_num)
    (by norm_num) (by norm_num)
  refine ⟨?_, ?_, ?_, h1.2.2.2.2.1, h1.2.2.2.2.2⟩
  · have := h1.2.1 (by norm_num) (by norm_num)
    simpa using this
  · exact h2.1.mpr (by norm_num)
  · exact h3.1.mpr (by norm_num)

/-- Iterated attachment under a negative capacity always succeeds: the
`size_t` comparison turns the negative capacity into a huge unsigned
bound. -/
theorem addAllOutputs_neg_cap (cap : Int) (hneg : cap < 0) (hrange : -(2 ^ 31) ≤ cap) :
    ∀ (ss : List Nat) (d : Device), d.outputAmount = cap →
      d.outputs.length + ss.length < 2 ^ 63 →
      addAllOutputs d ss = ({ d with outputs := d.outputs ++ ss }, none) := by
  intro ss
  induction ss with
  | nil =>
    intro d hcap hlen
    simp [addAllOutputs]
  | cons s rest ih =>
    intro d hcap hlen
    have hlt : d.outputs.length < toSizeT d.outputAmount := by
      rw [hcap]; unfold toSizeT; omega
    have hadd : Device.addOutput d s = ({ d with outputs := d.outputs ++ [s] }, none) := by
      simp [Device.addOutput, hlt]
    show (match Device.addOutput d s with
      | (d2, none) => addAllOutputs d2 rest
      | (d2, some e) => (d2, some e)) = _
    rw [hadd]
    have hlen2 : d.outputs.length + 1 + rest.length < 2 ^ 63 := by
      simp at hlen
      omega
    show addAllOutputs { d with outputs := d.outputs ++ [s] } rest = _
    rw [ih { d with outputs := d.outputs ++ [s] } hcap (by simp; omega)]
    simp

/-- C10: a device constructed with a negative output capacity (such as
`Divider(-1)`) never rejects an attachment: the capacity check compares
the unsigned vector length against the capacity converted to a huge
unsigned value, so every `addOutput` in a sequence of arbitrarily many
attachments succeeds, and the resulting attached count violates the
`len(outputs) ≤ outputAmount` invariant. -/
theorem negative_capacity_unbounded (outputs_count : Int) (ss : List Nat)
    (hneg : outputs_count < 0) (hrange : -(2 ^ 31) ≤ outputs_count)
    (hlen : ss.length < 2 ^ 63) :
    addAllOutputs (mkDivider outputs_count) ss =
      ({ mkDivider outputs_count with outputs := ss }, none) ∧
    ¬((ss.length : Int) ≤ outputs_count) := by
  constructor
  · have h := addAllOutputs_neg_cap outputs_count hneg hrange ss
      (mkDivider outputs_count) rfl (by simp [mkDivider]; omega)
    simpa [mkDivider] using h
  · omega

/-- Witness for C10: `Divider(-1)` accepts three output attachments
without any `PortLimitExceeded`, ending with 3 > -1 attached outputs. -/
theorem negative_capacity_unbounded_witness :
    addAllOutputs (mkDivider (-1)) [5, 6, 7] =
      ({ mkDivider (-1) with outputs := [5, 6, 7] }, none) ∧
    ¬((3 : Int) ≤ -1) := by
  have h := negative_capacity_unbounded (-1) [5, 6, 7] (by norm_num) (by norm_num)
    (by norm_num)
  exact ⟨h.1, by norm_num⟩

/-- A Reactor-shaped device with one attached input and exactly
`outputAmount` attached outputs updates without error and writes
`inputMass * (1 / outputAmount)` to every attached output. -/
theorem reactor_update_full (cap : Int) (i0 : Nat) (os : List Nat) (σ : Store)
    (hcap : cap.toNat = os.length) :
    (Reactor.updateOutputs ⟨1, cap, [i0], os⟩ σ).2 = none ∧
    ∀ id ∈ os, (Reactor.updateOutputs ⟨1, cap, [i0], os⟩ σ).1 id =
      σ i0 * (1 / (cap : Rat)) := by
  have heq := reactor_update_eq ⟨1, cap, [i0], os⟩ σ i0 [] rfl
  rw [heq]
  rw [if_pos (Or.inl (le_of_eq hcap))]
  refine ⟨rfl, fun id hid => ?_⟩
  show writeAll (os.take cap.toNat) (σ i0 * (1 / (cap : Rat))) σ id = σ i0 * (1 / (cap : Rat))
  rw [hcap, List.take_length]
  exact writeAll_mem os _ σ id hid

/-- C3: a Reactor with one attached input carrying mass `σ i0` and all
declared output ports attached sets every output's mass flow to
`σ i0 / outputAmount` — the split is across the declared capacity —
without error; with `is_double = true` and input 10 this yields 5 on
each of the two outputs (see the witness). -/
theorem reactor_updateOutputs_split (b : Bool) (i0 : Nat) (os : List Nat) (σ : Store)
    (hos : (os.length : Int) = (mkReactor b).outputAmount) :
    (Reactor.updateOutputs { mkReactor b with inputs := [i0], outputs := os } σ).2 = none ∧
    ∀ id ∈ os,
      (Reactor.updateOutputs { mkReactor b with inputs := [i0], outputs := os } σ).1 id =
        σ i0 / ((mkReactor b).outputAmount : Rat) := by
  have hcap : ((mkReactor b).outputAmount).toNat = os.length := by
    cases b <;> simp [mkReactor] at hos ⊢ <;> omega
  have h := reactor_update_full ((mkReactor b).outputAmount) i0 os σ hcap
  show (Reactor.updateOutputs ⟨1, (mkReactor b).outputAmount, [i0], os⟩ σ).2 = none ∧
    ∀ id ∈ os,
      (Reactor.updateOutputs ⟨1, (mkReactor b).outputAmount, [i0], os⟩ σ).1 id =
        σ i0 / ((mkReactor b).outputAmount : Rat)
  refine ⟨h.1, fun id hid => ?_⟩
  rw [h.2 id hid, mul_one_div]

/-- Concrete store for the C3 witness: stream 1 carries 10. -/
def σC3 : Store := fun id => if id = 1 then 10 else 0

/-- Witness for C3: `Reactor(is_double = true)` with input 10 and both
outputs attached puts 5 on each output without error. -/
theorem reactor_updateOutputs_split_witness :
    (Reactor.updateOutputs { mkReactor true with inputs := [1], outputs := [2, 3] } σC3).2
      = none ∧
    (Reactor.updateOutputs { mkReactor true with inputs := [1], outputs := [2, 3] } σC3).1 2
      = 5 ∧
    (Reactor.updateOutputs { mkReactor true with inputs := [1], outputs := [2, 3] } σC3).1 3
      = 5 := by
  have h := reactor_updateOutputs_split true 1 [2, 3] σC3 (by simp [mkReactor])
  refine ⟨h.1, ?_, ?_⟩
  · rw [h.2 2 (by decide)]
    norm_num [σC3, mkReactor]
  · rw [h.2 3 (by decide)]
    norm_num [σC3, mkReactor]

/-- C4: mass conservation and equal split.  For every positive input
mass `m` and port count `n ≥ 1`, after a successful `updateOutputs` of a
Divider with `n` attached outputs, or of a Reactor-shaped device with
declared capacity `n` and all ports attached, the sum of the output mass
flows (as read back from the store) equals `m` exactly — in particular
within the reference tolerance `0.01` — and every output equals
`m / n`. -/
theorem mass_conservation_equal_split (m : Rat) (n : Nat) (i0 : Nat) (os : List Nat)
    (σ : Store) (hm : 0 < m) (hn : 1 ≤ n) (hσ : σ i0 = m) (hos : os.length = n) :
    ((os.map (Divider.updateOutputs ⟨1, (n : Int), [i0], os⟩ σ).1).sum = m ∧
      |(os.map (Divider.updateOutputs ⟨1, (n : Int), [i0], os⟩ σ).1).sum - m| < 1 / 100 ∧
      ∀ id ∈ os, (Divider.updateOutputs ⟨1, (n : Int), [i0], os⟩ σ).1 id = m / (n : Rat)) ∧
    ((os.map (Reactor.updateOutputs ⟨1, (n : Int), [i0], os⟩ σ).1).sum = m ∧
      |(os.map (Reactor.updateOutputs ⟨1, (n : Int), [i0], os⟩ σ).1).sum - m| < 1 / 100 ∧
      ∀ id ∈ os, (Reactor.updateOutputs ⟨1, (n : Int), [i0], os⟩ σ).1 id = m / (n : Rat)) := by
  have hne : (n : Rat) ≠ 0 := Nat.cast_ne_zero.mpr (by omega)
  have hnil : os ≠ [] := by
    intro h
    rw [h] at hos
    simp at hos
    omega
  have hmul : (n : Rat) * (m / (n : Rat)) = m := by field_simp
  have hd := divider_update_ok ⟨1, (n : Int), [i0], os⟩ σ i0 [] rfl hnil
  have hdkey : ∀ id ∈ os, (Divider.updateOutputs ⟨1, (n : Int), [i0], os⟩ σ).1 id
      = m / (n : Rat) := by
    intro id hid
    rw [hd]
    show writeAll os (σ i0 / ((os.length : Nat) : Rat)) σ id = m / (n : Rat)
    rw [writeAll_mem os _ σ id hid, hσ, hos]
  have hdsum : (os.map (Divider.updateOutputs ⟨1, (n : Int), [i0], os⟩ σ).1).sum = m := by
    rw [list_map_sum_const os _ (m / (n : Rat)) hdkey, hos, hmul]
  have hr := reactor_update_full (n : Int) i0 os σ (by rw [Int.toNat_natCast, hos])
  have hrkey : ∀ id ∈ os, (Reactor.updateOutputs ⟨1, (n : Int), [i0], os⟩ σ).1 id
      = m / (n : Rat) := by
    intro id hid
    rw [hr.2 id hid, mul_one_div, hσ]
    norm_cast
  have hrsum : (os.map (Reactor.updateOutputs ⟨1, (n : Int), [i0], os⟩ σ).1).sum = m := by
    rw [list_map_sum_const os _ (m / (n : Rat)) hrkey, hos, hmul]
  refine ⟨⟨hdsum, ?_, hdkey⟩, hrsum, ?_, hrkey⟩
  · rw [hdsum, sub_self, abs_zero]
    norm_num
  · rw [hrsum, sub_self, abs_zero]
    norm_num

/-- Concrete store for the C4 witness: stream 1 carries 10. -/
def σC4 : Store := fun id => if id = 1 then 10 else 0

/-- Witness for C4: with input 10 and two outputs, the Divider and
Reactor outputs each read 5 and sum to 10. -/
theorem mass_conservation_equal_split_witness :
    ([2, 3].map (Divider.updateOutputs ⟨1, (2 : Int), [1], [2, 3]⟩ σC4).1).sum = 10 ∧
    ([2, 3].map (Reactor.updateOutputs ⟨1, (2 : Int), [1], [2, 3]⟩ σC4).1).sum = 10 ∧
    (Divider.updateOutputs ⟨1, (2 : Int), [1], [2, 3]⟩ σC4).1 2 = 10 / 2 ∧
    (Reactor.updateOutputs ⟨1, (2 : Int), [1], [2, 3]⟩ σC4).1 3 = 10 / 2 := by
  have h := mass_conservation_equal_split 10 2 1 [2, 3] σC4 (by norm_num) (by norm_num)
    (by norm_num [σC4]) (by norm_num)
  refine ⟨?_, ?_, ?_, ?_⟩
  · have := h.1.1
    norm_num at this ⊢
    exact this
  · have := h.2.1
    norm_num at this ⊢
    exact this
  · have := h.1.2.2 2 (by decide)
    norm_num at this ⊢
    exact this
  · have := h.2.2.2 3 (by decide)
    norm_num at this ⊢
    exact this

/-- Writing the same constant to the same output list twice leaves the
store where the first pass put it. -/
theorem writeAll_stable (L : List Nat) (c : Rat) (σ : Store) (id : Nat) :
    writeAll L c (writeAll L c σ) id = writeAll L c σ id := by
  by_cases hmem : id ∈ L
  · rw [writeAll_mem _ _ _ _ hmem, writeAll_mem _ _ _ _ hmem]
  · rw [writeAll_not_mem _ _ _ _ hmem, writeAll_not_mem _ _ _ _ hmem]

/-- A store assigning 1 to every stream, used to exhibit the aliasing
counterexample for C7. -/
def σones : Store := fun _ => 1

/-- Counterexample to C7 as stated.  The claim quantifies over every
device, but nothing prevents attaching one stream both as an input and
as an output (the C++ ports are `shared_ptr`s and `addInput`/`addOutput`
accept any stream).  On a Mixer-shaped device with inputs `[0, 1]` and
output `[0]`, all streams initially carrying 1, `updateOutputs` writes
`(1 + 1) / 1 = 2` to stream 0 — mutating the mass flow of an attached
input stream. -/
theorem mixer_mutates_aliased_input :
    (0 : Nat) ∈ Device.inputs ⟨2, 1, [0, 1], [0]⟩ ∧
    (Mixer.updateOutputs ⟨2, 1, [0, 1], [0]⟩ σones).1 0 ≠ σones 0 := by
  constructor
  · decide
  · show writeAll [0] (sumFlows [0, 1] σones / ((List.length [0] : Nat) : Rat)) σones 0 ≠ 1
    rw [writeAll_mem [0] _ σones 0 (List.mem_singleton.mpr rfl)]
    norm_num [sumFlows, σones]

/-- Mixer part of the amended C7: under input/output disjointness the
inputs are preserved and a repeated call changes nothing. -/
theorem mixer_disjoint_stable (d : Device) (σ : Store)
    (hdisj : ∀ id ∈ d.inputs, id ∉ d.outputs) :
    (∀ id ∈ d.inputs, (Mixer.updateOutputs d σ).1 id = σ id) ∧
    (Mixer.updateOutputs d (Mixer.updateOutputs d σ).1).2 = (Mixer.updateOutputs d σ).2 ∧
    ∀ id, (Mixer.updateOutputs d (Mixer.updateOutputs d σ).1).1 id
      = (Mixer.updateOutputs d σ).1 id := by
  by_cases ho : d.outputs = []
  · have h0 := mixer_update_nil d σ ho
    exact ⟨fun id _ => by simp [h0], by simp [h0], fun id => by simp [h0]⟩
  · have hA := mixer_update_ok d σ ho
    have hin : ∀ id ∈ d.inputs,
        writeAll d.outputs (sumFlows d.inputs σ / (d.outputs.length : Rat)) σ id = σ id :=
      fun id hid => writeAll_not_mem _ _ _ _ (hdisj id hid)
    have hsum : sumFlows d.inputs
        (writeAll d.outputs (sumFlows d.inputs σ / (d.outputs.length : Rat)) σ)
        = sumFlows d.inputs σ := sumFlows_congr _ _ _ hin
    have hB := mixer_update_ok d
      (writeAll d.outputs (sumFlows d.inputs σ / (d.outputs.length : Rat)) σ) ho
    refine ⟨fun id hid => ?_, ?_, fun id => ?_⟩
    · rw [hA]
      exact hin id hid
    · rw [hA]
      dsimp only
      rw [hB]
    · rw [hA]
      dsimp only
      rw [hB]
      dsimp only
      rw [hsum]
      exact writeAll_stable d.outputs _ σ id

/-- Divider part of the amended C7. -/
theorem divider_disjoint_stable (d : Device) (σ : Store)
    (hdisj : ∀ id ∈ d.inputs, id ∉ d.outputs) :
    (∀ id ∈ d.inputs, (Divider.updateOutputs d σ).1 id = σ id) ∧
    (Divider.updateOutputs d (Divider.updateOutputs d σ).1).2 = (Divider.updateOutputs d σ).2 ∧
    ∀ id, (Divider.updateOutputs d (Divider.updateOutputs d σ).1).1 id
      = (Divider.updateOutputs d σ).1 id := by
  by_cases hfail : d.inputs = [] ∨ d.outputs = []
  · have h0 := divider_update_fail d σ hfail
    exact ⟨fun id _ => by simp [h0], by simp [h0], fun id => by simp [h0]⟩
  · push_neg at hfail
    obtain ⟨hni, ho⟩ := hfail
    obtain ⟨i0, irest, hi⟩ := List.exists_cons_of_ne_nil hni
    have hi0 : i0 ∈ d.inputs := by rw [hi]; exact List.mem_cons_self i0 irest
    have hA := divider_update_ok d σ i0 irest hi ho
    have hXi0 : writeAll d.outputs (σ i0 / (d.outputs.length : Rat)) σ i0 = σ i0 :=
      writeAll_not_mem _ _ _ _ (hdisj i0 hi0)
    have hB := divider_update_ok d
      (writeAll d.outputs (σ i0 / (d.outputs.length : Rat)) σ) i0 irest hi ho
    refine ⟨fun id hid => ?_, ?_, fun id => ?_⟩
    · rw [hA]
      exact writeAll_not_mem _ _ _ _ (hdisj id hid)
    · rw [hA]
      dsimp only
      rw [hB]
    · rw [hA]
      dsimp only
      rw [hB]
      dsimp only
      rw [hXi0]
      exact writeAll_stable d.outputs _ σ id

/-- Reactor part of the amended C7. -/
theorem reactor_disjoint_stable (d : Device) (σ : Store)
    (hdisj : ∀ id ∈ d.inputs, id ∉ d.outputs) :
    (∀ id ∈ d.inputs, (Reactor.updateOutputs d σ).1 id = σ id) ∧
    (Reactor.updateOutputs d (Reactor.updateOutputs d σ).1).2 = (Reactor.updateOutputs d σ).2 ∧
    ∀ id, (Reactor.updateOutputs d (Reactor.updateOutputs d σ).1).1 id
      = (Reactor.updateOutputs d σ).1 id := by
  rcases hi : d.inputs with _ | ⟨i0, rest⟩
  · have h0 : Reactor.updateOutputs d σ = (σ, some DevError.outOfRange) := by
      unfold Reactor.updateOutputs
      rw [hi]
    have h0X : ∀ τ : Store, Reactor.updateOutputs d τ = (τ, some DevError.outOfRange) := by
      intro τ
      unfold Reactor.updateOutputs
      rw [hi]
    exact ⟨fun id hid => by simp [h0], by simp [h0, h0X], fun id => by simp [h0, h0X]⟩
  · have hi0 : i0 ∈ d.inputs := by rw [hi]; exact List.mem_cons_self i0 rest
    have hA := reactor_update_eq d σ i0 rest hi
    have htake : i0 ∉ d.outputs.take d.outputAmount.toNat :=
      fun hmem => hdisj i0 hi0 (List.take_subset _ _ hmem)
    have hXi0 : writeAll (d.outputs.take d.outputAmount.toNat)
        (σ i0 * (1 / (d.outputAmount : Rat))) σ i0 = σ i0 :=
      writeAll_not_mem _ _ _ _ htake
    have hB := reactor_update_eq d
      (writeAll (d.outputs.take d.outputAmount.toNat)
        (σ i0 * (1 / (d.outputAmount : Rat))) σ) i0 rest hi
    refine ⟨fun id hid => ?_, ?_, fun id => ?_⟩
    · rw [hA]
      exact writeAll_not_mem _ _ _ _
        (fun hmem => hdisj id (by rw [hi]; exact hid) (List.take_subset _ _ hmem))
    · rw [hA]
      dsimp only
      rw [hB]
    · rw [hA]
      dsimp only
      rw [hB]
      dsimp only
      rw [hXi0]
      exact writeAll_stable (d.outputs.take d.outputAmount.toNat) _ σ id

/-- C7 amended: provided no stream is attached both as an input and as
an output of the device (the aliasing case refuted by the
counterexample), `updateOutputs` of Mixer, Divider and Reactor never
changes any input stream's mass flow, and calling it a second time with
the thus-unchanged inputs returns the same error status and leaves every
stream's mass flow exactly as after the first call. -/
theorem update_idempotent_inputs_preserved (d : Device) (σ : Store)
    (hdisj : ∀ id ∈ d.inputs, id ∉ d.outputs) :
    ((∀ id ∈ d.inputs, (Mixer.updateOutputs d σ).1 id = σ id) ∧
      (Mixer.updateOutputs d (Mixer.updateOutputs d σ).1).2 = (Mixer.updateOutputs d σ).2 ∧
      ∀ id, (Mixer.updateOutputs d (Mixer.updateOutputs d σ).1).1 id
        = (Mixer.updateOutputs d σ).1 id) ∧
    ((∀ id ∈ d.inputs, (Divider.updateOutputs d σ).1 id = σ id) ∧
      (Divider.updateOutputs d (Divider.updateOutputs d σ).1).2
        = (Divider.updateOutputs d σ).2 ∧
      ∀ id, (Divider.updateOutputs d (Divider.updateOutputs d σ).1).1 id
        = (Divider.updateOutputs d σ).1 id) ∧
    ((∀ id ∈ d.inputs, (Reactor.updateOutputs d σ).1 id = σ id) ∧
      (Reactor.updateOutputs d (Reactor.updateOutputs d σ).1).2
        = (Reactor.updateOutputs d σ).2 ∧
      ∀ id, (Reactor.updateOutputs d (Reactor.updateOutputs d σ).1).1 id
        = (Reactor.updateOutputs d σ).1 id) :=
  ⟨mixer_disjoint_stable d σ hdisj, divider_disjoint_stable d σ hdisj,
    reactor_disjoint_stable d σ hdisj⟩

/-- Concrete store for the C7 witness. -/
def σC7 : Store := fun id => if id = 1 then 10 else if id = 2 then 5 else 0

/-- Witness for the amended C7: on a Mixer with disjoint ports the input
keeps its flow and the repeated call reproduces the first call's
output. -/
theorem update_idempotent_inputs_preserved_witness :
    (Mixer.updateOutputs ⟨2, 1, [1, 2], [3]⟩ σC7).1 1 = σC7 1 ∧
    (Mixer.updateOutputs ⟨2, 1, [1, 2], [3]⟩
        (Mixer.updateOutputs ⟨2, 1, [1, 2], [3]⟩ σC7).1).1 3
      = (Mixer.updateOutputs ⟨2, 1, [1, 2], [3]⟩ σC7).1 3 := by
  have h := update_idempotent_inputs_preserved ⟨2, 1, [1, 2], [3]⟩ σC7 (by decide)
  exact ⟨h.1.1 1 (by decide), h.1.2.2 3⟩

/-- A Reactor-shaped device with an attached input but fewer attached
outputs than `outputAmount` hits the checked `outputs.at(i)` out of
range. -/
theorem reactor_update_err (cap : Int) (i0 : Nat) (rest os : List Nat) (σ : Store)
    (hlt : os.length < cap.toNat) :
    (Reactor.updateOutputs ⟨1, cap, i0 :: rest, os⟩ σ).2 = some DevError.outOfRange := by
  have hA := reactor_update_eq ⟨1, cap, i0 :: rest, os⟩ σ i0 rest rfl
  dsimp only at hA
  rw [hA]
  rw [if_neg (by omega)]

/-- C8: Reactor's `updateOutputs` assumes full wiring.  With no input
attached, `inputs.at(0)` raises the out-of-range error (leaving the
store untouched); with fewer attached outputs than `outputAmount`,
`outputs.at(i)` raises it; and the out-of-range error is distinct from
`PrecursorMissing`.  Under the precondition — one input attached and
`outputAmount` outputs attached — the call succeeds with no
out-of-range access. -/
theorem reactor_out_of_range (b : Bool) (ins os : List Nat) (σ : Store) :
    (ins = [] →
      Reactor.updateOutputs { mkReactor b with inputs := ins, outputs := os } σ
        = (σ, some DevError.outOfRange)) ∧
    (os.length < ((mkReactor b).outputAmount).toNat →
      (Reactor.updateOutputs { mkReactor b with inputs := ins, outputs := os } σ).2
        = some DevError.outOfRange) ∧
    (∀ i0, ins = [i0] → os.length = ((mkReactor b).outputAmount).toNat →
      (Reactor.updateOutputs { mkReactor b with inputs := ins, outputs := os } σ).2
        = none) ∧
    DevError.outOfRange ≠ DevError.precursorMissing := by
  refine ⟨fun h => ?_, fun hlt => ?_, fun i0 h1 h2 => ?_, by decide⟩
  · subst h
    rfl
  · rcases ins with _ | ⟨i0, rest⟩
    · rfl
    · exact reactor_update_err ((mkReactor b).outputAmount) i0 rest os σ hlt
  · subst h1
    exact (reactor_update_full ((mkReactor b).outputAmount) i0 os σ h2.symm).1

/-- Concrete store for the C8 witness: stream 1 carries 9. -/
def σC8 : Store := fun id => if id = 1 then 9 else 0

/-- Witness for C8: a Reactor with no input fails out of range leaving
the store untouched; a double Reactor with only one output attached
fails out of range; fully wired, it succeeds. -/
theorem reactor_out_of_range_witness :
    Reactor.updateOutputs { mkReactor false with inputs := [], outputs := [2] } σC8
      = (σC8, some DevError.outOfRange) ∧
    (Reactor.updateOutputs { mkReactor true with inputs := [1], outputs := [2] } σC8).2
      = some DevError.outOfRange ∧
    (Reactor.updateOutputs { mkReactor true with inputs := [1], outputs := [2, 3] } σC8).2
      = none := by
  have h1 := (reactor_out_of_range false [] [2] σC8).1 rfl
  have h2 := (reactor_out_of_range true [1] [2] σC8).2.1 (by decide)
  have h3 := (reactor_out_of_range true [1] [2, 3] σC8).2.2.1 1 rfl (by decide)
  exact ⟨h1, h2, h3⟩

end LabDevice
